import Mathlib

/-!
# Verification of the pulse_stream telemetry pipeline

Shallow embedding of the core of `src/pulsestream.py` and
`src/heartbeat_visualizer.py`: the BLE Heart Rate Measurement (HRM)
decoder, the Polar PMD ECG decoder and its start/stop command bytes,
the cross-thread hand-off queues, and the dynamic display-range
estimator.  Byte buffers are `List Nat` (each entry one byte),
Python `float` arithmetic is modelled over `ℚ`, and Python
exceptions (`IndexError`, `queue.Full`) are modelled with `Except`.
-/

namespace PulseStream

/-- Python `int.from_bytes(bs, "little")` on a byte list (an empty
slice yields 0, exactly as in Python). -/
def pyFromBytesLE : List Nat → Nat
  | [] => 0
  | b :: rest => b + 256 * pyFromBytesLE rest

/-- Values stored in the Python flags dictionaries: booleans from
`parse_hrm`, and the error string of the transport-error marker. -/
inductive DictVal where
  | b (x : Bool)
  | s (x : String)
  deriving DecidableEq, Repr

/-- A Python dict with string keys, as an association list. -/
abbrev FlagsDict := List (String × DictVal)

/-- Python exceptions that the embedded code can raise. -/
inductive PyError where
  | indexError
  | full
  deriving DecidableEq, Repr

/-- A decoded heart-rate event as placed on `hr_data_queue`:
the tuple `(hr, rr_list, flags)` of `pulsestream.py`. -/
abbrev HrEvent := Nat × List ℚ × FlagsDict

instance {ε α : Type} [DecidableEq ε] [DecidableEq α] : DecidableEq (Except ε α)
  | Except.ok a, Except.ok b =>
    match decEq a b with
    | isTrue h => isTrue (by rw [h])
    | isFalse h => isFalse (by intro hh; injection hh; exact h (by assumption))
  | Except.ok _, Except.error _ => isFalse (by intro hh; exact Except.noConfusion hh)
  | Except.error _, Except.ok _ => isFalse (by intro hh; exact Except.noConfusion hh)
  | Except.error e, Except.error f =>
    match decEq e f with
    | isTrue h => isTrue (by rw [h])
    | isFalse h => isFalse (by intro hh; injection hh; exact h (by assumption))

/-- The RR-interval `while` loop of `parse_hrm`
(`src/pulsestream.py` lines 43-48): while `i + 1 < len(data)`, read the
2-byte little-endian slice `data[i:i+2]`, convert to milliseconds via
`value * 1000 / 1024`, and advance `i` by 2.  The loop is embedded with
a fuel argument so that it is structurally recursive; the loop index
grows by 2 each iteration, so any fuel of at least `data.length`
iterations is never exhausted before the loop condition fails. -/
def rrLoop (data : List Nat) : Nat → Nat → List ℚ
  | 0, _ => []
  | fuel + 1, i =>
    if i + 1 < data.length then
      ((pyFromBytesLE ((data.drop i).take 2) : ℚ) * 1000 / 1024) :: rrLoop data fuel (i + 2)
    else
      []

/-- `parse_hrm` (`src/pulsestream.py` lines 20-54).  `data[0]` and the
8-bit heart-rate read `data[i]` raise `IndexError` out of range;
the 16-bit read uses the slice `data[i:i+2]`, which never raises. -/
def parse_hrm (data : List Nat) : Except PyError HrEvent :=
  match data with
  | [] => Except.error PyError.indexError
  | flags :: rest =>
    let hr_16bit : Bool := flags &&& 0x01 != 0
    let sensor_contact_supported : Bool := flags &&& 0x04 != 0
    let sensor_contact_detected : Bool := flags &&& 0x02 != 0
    let energy_expended_present : Bool := flags &&& 0x08 != 0
    let rr_present : Bool := flags &&& 0x10 != 0
    let hrRead : Except PyError (Nat × Nat) :=
      if hr_16bit then
        Except.ok (pyFromBytesLE (rest.take 2), 3)
      else
        match rest with
        | [] => Except.error PyError.indexError
        | b :: _ => Except.ok (b, 2)
    match hrRead with
    | Except.error e => Except.error e
    | Except.ok (hr, i) =>
      let i := if energy_expended_present then i + 2 else i
      let rr_list := if rr_present then rrLoop data data.length i else []
      Except.ok (hr, rr_list,
        [("sensor_contact_supported", DictVal.b sensor_contact_supported),
         ("sensor_contact_detected", DictVal.b sensor_contact_detected),
         ("hr_16bit", DictVal.b hr_16bit)])

/-- Python `int.from_bytes(bs, "little", signed=True)`: the unsigned
little-endian value reinterpreted as two's complement at the width of
the byte string. -/
def pyFromBytesLESigned (bs : List Nat) : Int :=
  let v := pyFromBytesLE bs
  if 2 * v < 2 ^ (8 * bs.length) then (v : Int) else (v : Int) - 2 ^ (8 * bs.length)

/-- The sample loop of `parse_ecg_data` (`src/pulsestream.py` lines
116-120): `for i in range(start_idx, len(data) - 2, 3)` with guard
`if i + 2 < len(data)`.  Over Python integers the range bound
`i < len(data) - 2` and the guard coincide, so a single condition
drives the loop: while `i + 2 < len(data)`, decode the 3-byte signed
little-endian slice `data[i:i+3]` and advance `i` by 3.  Embedded
with fuel for structural recursion; the index grows by 3 each
iteration, so fuel `data.length` is never exhausted before the
condition fails. -/
def ecgLoop (data : List Nat) : Nat → Nat → List Int
  | 0, _ => []
  | fuel + 1, i =>
    if i + 2 < data.length then
      pyFromBytesLESigned ((data.drop i).take 3) :: ecgLoop data fuel (i + 3)
    else
      []

/-- `parse_ecg_data` (`src/pulsestream.py` lines 103-122): payloads of
fewer than 10 bytes yield `[]`; otherwise skip the 10-byte header
(`start_idx = 10`) and run the sample loop. -/
def parse_ecg_data (data : List Nat) : List Int :=
  if data.length < 10 then []
  else ecgLoop data data.length 10

/-- Modelled from the spec for the refinement comparison of C6
(§4.2): after the header is skipped, the remainder is a back-to-back
sequence of 3-byte little-endian two's-complement signed integers,
and decoding stops when fewer than 3 bytes remain. -/
def ecgSamplesSpec : List Nat → List Int
  | b0 :: b1 :: b2 :: rest => pyFromBytesLESigned [b0, b1, b2] :: ecgSamplesSpec rest
  | _ => []

/-- The PMD start-ECG-acquisition command bytes
(`src/pulsestream.py` lines 167-172): start opcode, ECG stream type,
130 Hz little-endian, then the fixed resolution/range settings. -/
def start_cmd : List Nat := [0x02, 0x00, 0x82, 0x00, 0x01, 0x01, 0x0E, 0x00]

/-- The PMD stop-ECG-streaming command bytes
(`src/pulsestream.py` line 208). -/
def stop_cmd : List Nat := [0x03, 0x00]

/-- Modelled from the spec for the round-trip comparison of C8
(§4.3): the documented start-command layout is opcode, stream-type
selector, then a little-endian sample-rate field. -/
def decodePmdStart (cmd : List Nat) : Nat × Nat × Nat :=
  (cmd.getD 0 0, cmd.getD 1 0, pyFromBytesLE ((cmd.drop 2).take 2))

/-- A Python `queue.Queue(maxsize)`: `maxsize = 0` (the default used
at `src/pulsestream.py` lines 67-68) means an unbounded queue.  Items
are kept in FIFO order, front of the list first. -/
structure PyQueue (α : Type) where
  maxsize : Nat
  items : List α

/-- `Queue.put_nowait`: raises `queue.Full` iff `maxsize > 0` and the
queue already holds at least `maxsize` items; otherwise appends. -/
def put_nowait {α : Type} (q : PyQueue α) (x : α) : Except PyError (PyQueue α) :=
  if 0 < q.maxsize ∧ q.maxsize ≤ q.items.length then
    Except.error PyError.full
  else
    Except.ok ⟨q.maxsize, q.items ++ [x]⟩

/-- The producer-side push of `notification_handler`
(`src/pulsestream.py` lines 147-150): `put_nowait` wrapped in
`try/except queue.Full: pass`, so a full queue drops the new event. -/
def notification_push {α : Type} (q : PyQueue α) (x : α) : PyQueue α :=
  match put_nowait q x with
  | Except.ok qq => qq
  | Except.error _ => q

/-- `hr_data_queue = queue.Queue()` (`src/pulsestream.py` line 67):
an unbounded queue. -/
def hr_data_queue : PyQueue HrEvent := ⟨0, []⟩

/-- `ecg_data_queue = queue.Queue()` (`src/pulsestream.py` line 68). -/
def ecg_data_queue : PyQueue (List Int) := ⟨0, []⟩

/-- The error marker `run_bluetooth` puts on the heart-rate queue on
fatal transport failure (`src/pulsestream.py` line 218):
`(0, [], {"error": str(e)})`. -/
def transport_error_event (e : String) : HrEvent :=
  (0, [], [("error", DictVal.s e)])

/-- The fatal-failure path of `run_bluetooth`
(`src/pulsestream.py` lines 215-218): the caught exception text is
pushed into `hr_data_queue` with `put_nowait` (not re-raised). -/
def run_bluetooth_error_push (q : PyQueue HrEvent) (e : String) :
    Except PyError (PyQueue HrEvent) :=
  put_nowait q (transport_error_event e)

/-- The ECG producer push of `ecg_notification_handler`
(`src/pulsestream.py` lines 124-135): decode, and only when the
sample list is non-empty (Python truthiness of `if samples:`)
`put_nowait` it, dropping on `queue.Full`. -/
def ecg_notification_handler (q : PyQueue (List Int)) (data : List Nat) :
    PyQueue (List Int) :=
  let samples := parse_ecg_data data
  if samples = [] then q else notification_push q samples

/-- The mutable window state of `HeartbeatVisualizer`:
`self.hr_min` / `self.hr_max` (`src/heartbeat_visualizer.py`
lines 20-21). -/
structure RangeState where
  hr_min : ℚ
  hr_max : ℚ
  deriving DecidableEq, Repr

/-- `hr_min_base` from `HeartbeatVisualizer.__init__` as constructed
in `main` (`src/pulsestream.py` line 237: `hr_min=20`). -/
def hr_min_base : ℚ := 20

/-- `hr_max_base` (`src/pulsestream.py` line 237: `hr_max=180`). -/
def hr_max_base : ℚ := 180

/-- `self.dynamic_range_padding = 20`
(`src/heartbeat_visualizer.py` line 26). -/
def dynamic_range_padding : ℚ := 20

/-- `self.range_smoothing = 0.1`
(`src/heartbeat_visualizer.py` line 27). -/
def range_smoothing : ℚ := 1 / 10

/-- The initial window: `self.hr_min = hr_min`, `self.hr_max = hr_max`
(`src/heartbeat_visualizer.py` lines 20-21) with the bases of `main`. -/
def initialRange : RangeState := ⟨hr_min_base, hr_max_base⟩

/-- `HeartbeatVisualizer.update_dynamic_range`
(`src/heartbeat_visualizer.py` lines 80-98): clamp the target window
to the bases, exponentially smooth toward it, and if the resulting
span is below 40 BPM recenter to exactly 40 and clamp both bounds
back into the base window. -/
def update_dynamic_range (s : RangeState) (current_hr : ℚ) : RangeState :=
  let target_min := max hr_min_base (current_hr - dynamic_range_padding)
  let target_max := min hr_max_base (current_hr + dynamic_range_padding)
  let m := s.hr_min + (target_min - s.hr_min) * range_smoothing
  let M := s.hr_max + (target_max - s.hr_max) * range_smoothing
  if M - m < 40 then
    let center := (m + M) / 2
    ⟨max hr_min_base (center - 20), min hr_max_base (center + 20)⟩
  else
    ⟨m, M⟩

/-- The ECG-related state of `HeartbeatVisualizer`: the `ecg_enabled`
flag and the sample history (`src/heartbeat_visualizer.py` lines
42-43; the rolling `deque` cap is presentation-level and not modelled
by the claims). -/
structure EcgViewState where
  ecg_enabled : Bool
  ecg_history : List Int

/-- `HeartbeatVisualizer.update_ecg_data`
(`src/heartbeat_visualizer.py` lines 100-104): on a truthy (non-empty)
batch, set `ecg_enabled` and extend the history. -/
def update_ecg_data (s : EcgViewState) (ecg_samples : List Int) : EcgViewState :=
  if ecg_samples = [] then s
  else ⟨true, s.ecg_history ++ ecg_samples⟩

end PulseStream

namespace PulseStream

/-- Successful `parse_hrm` results always carry the three-key flags
dictionary computed from the flags byte `data[0]`. -/
theorem parse_hrm_ok_flags {data : List Nat} {hr : Nat} {rr : List ℚ}
    {fl : FlagsDict} (h : parse_hrm data = Except.ok (hr, rr, fl)) :
    fl = [("sensor_contact_supported", DictVal.b (data.getD 0 0 &&& 0x04 != 0)),
          ("sensor_contact_detected", DictVal.b (data.getD 0 0 &&& 0x02 != 0)),
          ("hr_16bit", DictVal.b (data.getD 0 0 &&& 0x01 != 0))] := by
  cases data with
  | nil => exact absurd h (by simp [parse_hrm])
  | cons flags rest =>
    simp only [parse_hrm] at h
    split at h
    next => exact Except.noConfusion h
    next =>
      simp only [Except.ok.injEq, Prod.mk.injEq] at h
      obtain ⟨-, -, rfl⟩ := h
      simp [List.getD]

/-- The ECG sample loop equals the spec's back-to-back 3-byte layout
on the remaining buffer, once the fuel covers the buffer length. -/
theorem ecgLoop_eq_spec (data : List Nat) :
    ∀ (fuel i : Nat), data.length ≤ fuel + i →
      ecgLoop data fuel i = ecgSamplesSpec (data.drop i) := by
  intro fuel
  induction fuel with
  | zero =>
    intro i hi
    have hd : data.drop i = [] := List.drop_eq_nil_of_le (by omega)
    simp [ecgLoop, hd, ecgSamplesSpec]
  | succ fuel ih =>
    intro i hi
    have hlen : (data.drop i).length = data.length - i := List.length_drop i data
    cases hdrop : data.drop i with
    | nil =>
      have h2 : ¬ (i + 2 < data.length) := by
        rw [hdrop] at hlen
        simp at hlen
        omega
      simp [ecgLoop, h2, hdrop, ecgSamplesSpec]
    | cons a t1 =>
      cases ht1 : t1 with
      | nil =>
        have h2 : ¬ (i + 2 < data.length) := by
          rw [hdrop, ht1] at hlen
          simp at hlen
          omega
        simp [ecgLoop, h2, hdrop, ht1, ecgSamplesSpec]
      | cons b t2 =>
        cases ht2 : t2 with
        | nil =>
          have h2 : ¬ (i + 2 < data.length) := by
            rw [hdrop, ht1, ht2] at hlen
            simp at hlen
            omega
          simp [ecgLoop, h2, hdrop, ht1, ht2, ecgSamplesSpec]
        | cons c t3 =>
          have hd3 : data.drop i = a :: b :: c :: t3 := by
            rw [hdrop, ht1, ht2]
          have h2 : i + 2 < data.length := by
            rw [hd3] at hlen
            simp at hlen
            omega
          have hdropnext : data.drop (i + 3) = t3 := by
            have : data.drop (i + 3) = (data.drop i).drop 3 := by
              rw [List.drop_drop]
            rw [this, hd3]
            rfl
          have htake : (data.drop i).take 3 = [a, b, c] := by
            rw [hd3]
            rfl
          have hih := ih (i + 3) (by omega)
          simp only [ecgLoop, if_pos h2, htake, hih, hdropnext, hd3,
            ecgSamplesSpec]
          rfl

/-- `parse_ecg_data` refines the spec layout: skip exactly 10 header
bytes and decode 3-byte groups until fewer than 3 bytes remain. -/
theorem parse_ecg_data_eq_spec (data : List Nat) :
    parse_ecg_data data = ecgSamplesSpec (data.drop 10) := by
  unfold parse_ecg_data
  split
  next hshort =>
    have hd : data.drop 10 = [] := List.drop_eq_nil_of_le (by omega)
    simp [hd, ecgSamplesSpec]
  next hlong =>
    exact ecgLoop_eq_spec data data.length 10 (by omega)

/-- Fewer than 3 remaining bytes decode to no samples. -/
theorem ecgSamplesSpec_short {l : List Nat} (h : l.length < 3) :
    ecgSamplesSpec l = [] := by
  match l with
  | [] => rfl
  | [_] => rfl
  | [_, _] => rfl
  | _ :: _ :: _ :: _ => simp at h; omega

/-- Folding the drop-on-full producer push over a bounded queue keeps
the first `capacity - current size` new events, in arrival order. -/
theorem foldl_notification_push_bounded {α : Type} (c : Nat) (hc : 0 < c) :
    ∀ (evs : List α) (l : List α),
      (evs.foldl notification_push ⟨c, l⟩).items = l ++ evs.take (c - l.length) := by
  intro evs
  induction evs with
  | nil => intro l; simp
  | cons ev rest ih =>
    intro l
    by_cases hfull : c ≤ l.length
    · have hpush : notification_push (⟨c, l⟩ : PyQueue α) ev = ⟨c, l⟩ := by
        simp [notification_push, put_nowait, hc, hfull]
      have htake : c - l.length = 0 := by omega
      simp only [List.foldl_cons, hpush, ih l, htake, List.take_zero]
    · have hpush : notification_push (⟨c, l⟩ : PyQueue α) ev = ⟨c, l ++ [ev]⟩ := by
        simp [notification_push, put_nowait, hfull]
      have hsucc : c - l.length = (c - (l.length + 1)) + 1 := by omega
      simp only [List.foldl_cons, hpush, ih (l ++ [ev])]
      rw [hsucc]
      simp [List.take_succ_cons]

/-- Folding the producer push over an unbounded queue appends every
event: nothing is ever dropped. -/
theorem foldl_notification_push_unbounded {α : Type} :
    ∀ (evs : List α) (l : List α),
      (evs.foldl notification_push ⟨0, l⟩).items = l ++ evs := by
  intro evs
  induction evs with
  | nil => intro l; simp
  | cons ev rest ih =>
    intro l
    have hpush : notification_push (⟨0, l⟩ : PyQueue α) ev = ⟨0, l ++ [ev]⟩ := by
      simp [notification_push, put_nowait]
    simp [List.foldl_cons, hpush, ih (l ++ [ev])]

/-- One `update_dynamic_range` call keeps the window inside the base
bounds, whatever the input heart rate. -/
theorem update_dynamic_range_preserves {s : RangeState}
    (hmin : hr_min_base ≤ s.hr_min) (hmax : s.hr_max ≤ hr_max_base) (hr : ℚ) :
    hr_min_base ≤ (update_dynamic_range s hr).hr_min ∧
      (update_dynamic_range s hr).hr_max ≤ hr_max_base := by
  have h1 : hr_min_base ≤ max hr_min_base (hr - dynamic_range_padding) :=
    le_max_left _ _
  have h2 : min hr_max_base (hr + dynamic_range_padding) ≤ hr_max_base :=
    min_le_left _ _
  simp only [update_dynamic_range]
  split
  next => exact ⟨le_max_left _ _, min_le_left _ _⟩
  next =>
    constructor
    · simp only [range_smoothing] at *
      linarith
    · simp only [range_smoothing] at *
      linarith

/-- Folding `update_dynamic_range` keeps the base-bound invariants. -/
theorem foldl_update_dynamic_range_preserves (inputs : List ℚ) :
    ∀ (s : RangeState), hr_min_base ≤ s.hr_min → s.hr_max ≤ hr_max_base →
      hr_min_base ≤ (inputs.foldl update_dynamic_range s).hr_min ∧
        (inputs.foldl update_dynamic_range s).hr_max ≤ hr_max_base := by
  induction inputs with
  | nil => intro s hmin hmax; exact ⟨hmin, hmax⟩
  | cons hr rest ih =>
    intro s hmin hmax
    obtain ⟨hmin2, hmax2⟩ := update_dynamic_range_preserves hmin hmax hr
    simpa using ih (update_dynamic_range s hr) hmin2 hmax2

/-- An `update(20)` step that does not hit the recenter branch. -/
theorem update20_step (q : ℚ) (h : 20 ≤ 126 * q) :
    update_dynamic_range ⟨20, 40 + 140 * q⟩ 20 = ⟨20, 40 + 126 * q⟩ := by
  have h1 : max (20 : ℚ) (20 - 20) = 20 := by norm_num
  have h2 : min (180 : ℚ) (20 + 20) = 40 := by norm_num
  simp only [update_dynamic_range, hr_min_base, hr_max_base,
    dynamic_range_padding, range_smoothing, h1, h2]
  split
  next hlt => exfalso; linarith
  next => congr 1 <;> ring

/-- Closed form of the first 18 repeated `update(20)` calls from the
base window: the minimum stays at 20 and the maximum decays
geometrically toward 40; in this regime the recenter branch never
fires because the span is still at least 40. -/
theorem foldl_update20_closed :
    ∀ n, n ≤ 18 →
      ((List.replicate n (20 : ℚ)).foldl update_dynamic_range initialRange) =
        ⟨20, 40 + 140 * (9 / 10) ^ n⟩ := by
  intro n
  induction n with
  | zero =>
    intro _
    simp only [List.replicate, List.foldl_nil, initialRange, hr_min_base,
      hr_max_base]
    congr 1
    norm_num
  | succ n ih =>
    intro hn
    rw [List.replicate_succ', List.foldl_append, ih (by omega),
      List.foldl_cons, List.foldl_nil]
    have hq17 : ((9 : ℚ) / 10) ^ 17 ≤ (9 / 10) ^ n :=
      pow_le_pow_of_le_one (by norm_num) (by norm_num) (by omega)
    have hbig : (10 : ℚ) / 63 ≤ (9 / 10) ^ 17 := by norm_num
    have h126 : (20 : ℚ) ≤ 126 * (9 / 10) ^ n := by linarith
    rw [update20_step _ h126]
    congr 1
    rw [pow_succ]
    ring

/-- An `update(70)` step away from the recenter branch. -/
theorem update70_step (q : ℚ) (hq : 0 < q) :
    update_dynamic_range ⟨50 - 30 * q, 90 + 90 * q⟩ 70 =
      ⟨50 - 27 * q, 90 + 81 * q⟩ := by
  have h1 : max (20 : ℚ) (70 - 20) = 50 := by norm_num
  have h2 : min (180 : ℚ) (70 + 20) = 90 := by norm_num
  simp only [update_dynamic_range, hr_min_base, hr_max_base,
    dynamic_range_padding, range_smoothing, h1, h2]
  split
  next hlt => exfalso; linarith
  next => congr 1 <;> ring

/-- Closed form of repeated `update(70)` calls from the base window:
both bounds converge geometrically to the clamped targets 50, 90. -/
theorem iterate_update70_closed :
    ∀ n, (fun st => update_dynamic_range st 70)^[n] initialRange =
      ⟨50 - 30 * (9 / 10) ^ n, 90 + 90 * (9 / 10) ^ n⟩ := by
  intro n
  induction n with
  | zero =>
    simp only [Function.iterate_zero, id_eq, initialRange, hr_min_base,
      hr_max_base]
    congr 1 <;> norm_num
  | succ n ih =>
    rw [Function.iterate_succ_apply', ih,
      update70_step _ (pow_pos (by norm_num) n)]
    congr 1 <;> (rw [pow_succ]; ring)

/-- Membership in the queue after a drop-on-full push: the element was
already queued or is the pushed one. -/
theorem mem_notification_push {α : Type} {qq : PyQueue α} {x b : α}
    (hb : b ∈ (notification_push qq x).items) : b ∈ qq.items ∨ b = x := by
  unfold notification_push put_nowait at hb
  by_cases hc : 0 < qq.maxsize ∧ qq.maxsize ≤ qq.items.length
  · rw [if_pos hc] at hb
    exact Or.inl hb
  · rw [if_neg hc] at hb
    simpa using hb

end PulseStream

namespace PulseStream

/-- C1: the claim says every buffer shorter than flags + heart-rate
field makes `parse_hrm` fail with `DecodeError::Truncated`, never
panicking and never silently returning a zero-value sample.  The code
has no such error: evaluating `parse_hrm` at the truncated inputs
shows that the 1-byte buffer `[0x01]` (16-bit HR selected, heart-rate
field missing) is silently decoded as a successful bpm-0 sample, and
that `[]` and `[0x00]` raise `IndexError`. -/
theorem claim_C1_truncated_behavior :
    parse_hrm [0x01] =
      Except.ok (0, [],
        [("sensor_contact_supported", DictVal.b false),
         ("sensor_contact_detected", DictVal.b false),
         ("hr_16bit", DictVal.b true)]) ∧
    parse_hrm [] = Except.error PyError.indexError ∧
    parse_hrm [0x00] = Except.error PyError.indexError := by
  refine ⟨?_, rfl, rfl⟩
  norm_num [parse_hrm, pyFromBytesLE]

/-- C2 counterexample: the heart-rate hand-off queue the code
constructs (`queue.Queue()`) is unbounded, so the claim's bounded
backpressure property fails at capacity `c = 1`: pushing `c + 1 = 2`
events leaves both observable to the consumer, not exactly `c = 1`. -/
theorem claim_C2_counterexample :
    (notification_push (notification_push hr_data_queue
        ((70 : Nat), ([] : List ℚ), ([] : FlagsDict)))
        ((75 : Nat), ([] : List ℚ), ([] : FlagsDict))).items =
      [((70 : Nat), ([] : List ℚ), ([] : FlagsDict)),
       ((75 : Nat), ([] : List ℚ), ([] : FlagsDict))] ∧
    ((notification_push (notification_push hr_data_queue
        ((70 : Nat), ([] : List ℚ), ([] : FlagsDict)))
        ((75 : Nat), ([] : List ℚ), ([] : FlagsDict))).items.length ≠ 1) := by
  constructor
  · rfl
  · decide

/-- C2 amended: the producer-side push discipline
(`put_nowait` + `except queue.Full: pass`) is non-blocking
drop-on-full, so on a queue constructed with capacity `c > 0` pushing
`c + 1` events leaves exactly the first `c` in FIFO order; but the
queue the code actually constructs, `hr_data_queue = queue.Queue()`,
is unbounded, so there all `c + 1` events are observed. -/
theorem claim_C2_amended (c : Nat) (hc : 0 < c) (evs : List HrEvent)
    (hlen : evs.length = c + 1) :
    (evs.foldl notification_push ⟨c, []⟩).items = evs.take c ∧
    (evs.foldl notification_push hr_data_queue).items = evs := by
  constructor
  · simpa using foldl_notification_push_bounded c hc evs []
  · simpa [hr_data_queue] using foldl_notification_push_unbounded evs []

/-- C2 amended, witnessed at capacity 2 with 3 events. -/
theorem claim_C2_amended_witness :
    (([((70 : Nat), ([] : List ℚ), ([] : FlagsDict)),
       ((80 : Nat), ([] : List ℚ), ([] : FlagsDict)),
       ((90 : Nat), ([] : List ℚ), ([] : FlagsDict))]).foldl notification_push
        (⟨2, []⟩ : PyQueue HrEvent)).items =
      [((70 : Nat), ([] : List ℚ), ([] : FlagsDict)),
       ((80 : Nat), ([] : List ℚ), ([] : FlagsDict))] ∧
    (([((70 : Nat), ([] : List ℚ), ([] : FlagsDict)),
       ((80 : Nat), ([] : List ℚ), ([] : FlagsDict)),
       ((90 : Nat), ([] : List ℚ), ([] : FlagsDict))]).foldl notification_push
        hr_data_queue).items =
      [((70 : Nat), ([] : List ℚ), ([] : FlagsDict)),
       ((80 : Nat), ([] : List ℚ), ([] : FlagsDict)),
       ((90 : Nat), ([] : List ℚ), ([] : FlagsDict))] := by
  simpa using claim_C2_amended 2 (by decide)
    [((70 : Nat), ([] : List ℚ), ([] : FlagsDict)),
     ((80 : Nat), ([] : List ℚ), ([] : FlagsDict)),
     ((90 : Nat), ([] : List ℚ), ([] : FlagsDict))] (by decide)

/-- C3 counterexample: with the positive input 20 BPM, after the 19th
consecutive `update_dynamic_range` call from the configured base
window (20, 180) the span `currentMax - currentMin` is
`30 + 63 * (9/10)^18 ≈ 39.46 < 40`: the recenter branch fires and the
clamp back to `baseMin` shrinks the span below `minimumSpan`. -/
theorem claim_C3_counterexample :
    (0 : ℚ) < 20 ∧
    ((List.replicate 19 (20 : ℚ)).foldl update_dynamic_range initialRange).hr_max -
      ((List.replicate 19 (20 : ℚ)).foldl update_dynamic_range initialRange).hr_min
      < 40 := by
  constructor
  · norm_num
  · have h18 := foldl_update20_closed 18 (by omega)
    have hstep : List.replicate 19 (20 : ℚ) = List.replicate 18 20 ++ [20] := by
      rw [← List.replicate_succ']
    rw [hstep, List.foldl_append, h18, List.foldl_cons, List.foldl_nil]
    have ha : ((9 : ℚ) / 10) ^ 18 < 10 / 63 := by norm_num
    have hb : (0 : ℚ) < (9 / 10 : ℚ) ^ 18 := by positivity
    have h1 : max (20 : ℚ) (20 - 20) = 20 := by norm_num
    have h2 : min (180 : ℚ) (20 + 20) = 40 := by norm_num
    simp only [update_dynamic_range, hr_min_base, hr_max_base,
      dynamic_range_padding, range_smoothing, h1, h2]
    split
    next hlt =>
      rw [max_eq_left (by linarith), min_eq_right (by linarith)]
      dsimp only
      linarith
    next hge => exfalso; linarith

/-- C3 amended: for every sequence of positive BPM inputs from the
configured base window, after every update `currentMin ≥ baseMin` and
`currentMax ≤ baseMax` hold; the third conjunct
`currentMax - currentMin ≥ minimumSpan` does not hold after every
update (the recenter branch's re-clamp can shrink the span below 40
when the midpoint is within 20 BPM of a base bound). -/
theorem claim_C3_amended (inputs : List ℚ) (hpos : ∀ hr ∈ inputs, 0 < hr) :
    hr_min_base ≤ (inputs.foldl update_dynamic_range initialRange).hr_min ∧
      (inputs.foldl update_dynamic_range initialRange).hr_max ≤ hr_max_base := by
  exact foldl_update_dynamic_range_preserves inputs initialRange
    (le_of_eq rfl) (le_of_eq rfl)

/-- C3 amended, witnessed on the single positive input 70. -/
theorem claim_C3_amended_witness :
    hr_min_base ≤ (([70] : List ℚ).foldl update_dynamic_range initialRange).hr_min ∧
      (([70] : List ℚ).foldl update_dynamic_range initialRange).hr_max ≤
        hr_max_base := by
  refine claim_C3_amended [70] ?_
  intro hr hm
  rw [List.mem_singleton] at hm
  rw [hm]
  norm_num

/-- C4: on fatal transport failure `run_bluetooth` signals the
consumer by `put_nowait`-ing the marker `(0, [], {"error": str(e)})`
into the heart-rate queue (data through the Bridge, not an exception
across the thread boundary; the push succeeds on the code's unbounded
queue), and that marker is distinguishable from every legitimate
decoded sample: its flags dict has an `"error"` key, which no
successful `parse_hrm` result ever has. -/
theorem claim_C4_transport_error_event (q : PyQueue HrEvent) (e : String)
    (hq : q.maxsize = 0) (data : List Nat) (hr : Nat) (rr : List ℚ)
    (fl : FlagsDict) (hok : parse_hrm data = Except.ok (hr, rr, fl)) :
    run_bluetooth_error_push q e =
        Except.ok ⟨0, q.items ++ [transport_error_event e]⟩ ∧
      (transport_error_event e).2.2.lookup "error" = some (DictVal.s e) ∧
      fl.lookup "error" = none := by
  refine ⟨?_, rfl, ?_⟩
  · simp [run_bluetooth_error_push, put_nowait, hq]
  · rw [parse_hrm_ok_flags hok]
    rfl

/-- C4 witnessed on the empty code queue, reason "device lost", and
the decodable packet `[0x00, 70]`. -/
theorem claim_C4_witness :
    run_bluetooth_error_push hr_data_queue "device lost" =
        Except.ok ⟨0, [transport_error_event "device lost"]⟩ ∧
      (transport_error_event "device lost").2.2.lookup "error" =
        some (DictVal.s "device lost") ∧
      ([("sensor_contact_supported", DictVal.b false),
        ("sensor_contact_detected", DictVal.b false),
        ("hr_16bit", DictVal.b false)] : FlagsDict).lookup "error" = none := by
  simpa [hr_data_queue] using
    claim_C4_transport_error_event hr_data_queue "device lost" rfl
      [0x00, 70] 70 [] _ rfl

/-- C5 counterexample: for the payload `[0x02, 70]` the flags byte has
bit 2 (sensor-contact-supported) clear, yet the decoded sample reports
`sensor_contact_detected` as the definite boolean `true`, the raw
value of flags bit 1 — not as unknown. -/
theorem claim_C5_counterexample :
    (2 &&& 0x04 = 0) ∧
    parse_hrm [0x02, 70] =
      Except.ok (70, [],
        [("sensor_contact_supported", DictVal.b false),
         ("sensor_contact_detected", DictVal.b true),
         ("hr_16bit", DictVal.b false)]) := by
  exact ⟨rfl, rfl⟩

/-- C5 amended: when flags bit 2 is clear the decoder reports
`sensor_contact_supported = false` and still reports
`sensor_contact_detected` as the raw value of flags bit 1 (a definite
boolean); treating the detected bit as unknown is left to consumers
of the flags dict. -/
theorem claim_C5_amended (data : List Nat) (hr : Nat) (rr : List ℚ)
    (fl : FlagsDict) (hbit2 : data.getD 0 0 &&& 0x04 = 0)
    (hok : parse_hrm data = Except.ok (hr, rr, fl)) :
    fl.lookup "sensor_contact_supported" = some (DictVal.b false) ∧
    fl.lookup "sensor_contact_detected" =
      some (DictVal.b (data.getD 0 0 &&& 0x02 != 0)) := by
  rw [parse_hrm_ok_flags hok]
  constructor
  · have hfalse : (data.getD 0 0 &&& 0x04 != 0) = false := by
      rw [hbit2]
      rfl
    have hlook : List.lookup "sensor_contact_supported"
        ([("sensor_contact_supported", DictVal.b (data.getD 0 0 &&& 0x04 != 0)),
          ("sensor_contact_detected", DictVal.b (data.getD 0 0 &&& 0x02 != 0)),
          ("hr_16bit", DictVal.b (data.getD 0 0 &&& 0x01 != 0))] : FlagsDict) =
        some (DictVal.b (data.getD 0 0 &&& 0x04 != 0)) := rfl
    rw [hlook, hfalse]
  · rfl

/-- C5 amended, witnessed on the payload `[0x02, 80]`. -/
theorem claim_C5_amended_witness :
    ([("sensor_contact_supported", DictVal.b false),
      ("sensor_contact_detected", DictVal.b true),
      ("hr_16bit", DictVal.b false)] : FlagsDict).lookup
        "sensor_contact_supported" = some (DictVal.b false) ∧
    ([("sensor_contact_supported", DictVal.b false),
      ("sensor_contact_detected", DictVal.b true),
      ("hr_16bit", DictVal.b false)] : FlagsDict).lookup
        "sensor_contact_detected" = some (DictVal.b true) := by
  simpa using claim_C5_amended [0x02, 80] 80 []
    [("sensor_contact_supported", DictVal.b false),
     ("sensor_contact_detected", DictVal.b true),
     ("hr_16bit", DictVal.b false)] rfl rfl

/-- C6: `parse_ecg_data` skips exactly the fixed 10-byte header and
decodes the remainder as back-to-back 3-byte little-endian
two's-complement integers, stopping when fewer than 3 bytes remain
(refinement against the spec layout `ecgSamplesSpec`); payloads
shorter than `10 + 3` bytes yield `[]` with no error, and the 13-byte
payload of 10 zero header bytes followed by `01 00 00` yields
exactly `[1]`. -/
theorem claim_C6_parse_ecg (data : List Nat) :
    parse_ecg_data data = ecgSamplesSpec (data.drop 10) ∧
    (data.length < 13 → parse_ecg_data data = []) ∧
    parse_ecg_data [0, 0, 0, 0, 0, 0, 0, 0, 0, 0, 0x01, 0x00, 0x00] = [1] := by
  refine ⟨parse_ecg_data_eq_spec data, ?_, rfl⟩
  intro hlen
  rw [parse_ecg_data_eq_spec data]
  apply ecgSamplesSpec_short
  have hdrop := List.length_drop 10 data
  omega

/-- C6, witnessed on the 1-byte keep-alive payload `[5]`. -/
theorem claim_C6_witness :
    ([5] : List Nat).length < 13 ∧ parse_ecg_data [5] = [] :=
  ⟨by decide, (claim_C6_parse_ecg [5]).2.1 (by decide)⟩

/-- C7: decoding `[0x11, 0x46, 0x00, 0x00, 0x02]` (flags 0x11: 16-bit
heart rate, RR present) yields bpm 70 read little-endian and exactly
one RR interval of `512 * 1000 / 1024 = 500` ms. -/
theorem claim_C7_hrm_16bit_rr_example :
    parse_hrm [0x11, 0x46, 0x00, 0x00, 0x02] =
      Except.ok (70, [(500 : ℚ)],
        [("sensor_contact_supported", DictVal.b false),
         ("sensor_contact_detected", DictVal.b false),
         ("hr_16bit", DictVal.b true)]) ∧
    (512 : ℚ) * 1000 / 1024 = 500 := by
  constructor
  · norm_num [parse_hrm, rrLoop, pyFromBytesLE]
    decide
  · norm_num

/-- C8: the PMD start-ECG command is the fixed byte sequence with
start opcode 0x02, ECG stream-type selector 0x00, the 130 Hz rate
little-endian (0x82, 0x00), then the fixed resolution/range setting
bytes; the stop command is exactly `[0x03, 0x00]`; decoding the start
bytes against the documented layout recovers opcode, type, and rate
bit-exact. -/
theorem claim_C8_pmd_commands :
    start_cmd = [0x02, 0x00, 0x82, 0x00, 0x01, 0x01, 0x0E, 0x00] ∧
    stop_cmd = [0x03, 0x00] ∧
    decodePmdStart start_cmd = (0x02, 0x00, 130) ∧
    start_cmd.drop 4 = [0x01, 0x01, 0x0E, 0x00] := by
  exact ⟨rfl, rfl, rfl, rfl⟩

/-- C9: starting from `currentMin = 20, currentMax = 180` with
padding 20, smoothing 0.1 and minimum span 40, repeated `update(70)`
calls strictly shrink `|currentMin - 50|` and `|currentMax - 90|` at
every iteration, and `currentMax - currentMin ≥ 40` holds after every
single call. -/
theorem claim_C9_update70_convergence (n : Nat) :
    |(((fun st => update_dynamic_range st 70)^[n + 1] initialRange).hr_min - 50)| <
      |(((fun st => update_dynamic_range st 70)^[n] initialRange).hr_min - 50)| ∧
    |(((fun st => update_dynamic_range st 70)^[n + 1] initialRange).hr_max - 90)| <
      |(((fun st => update_dynamic_range st 70)^[n] initialRange).hr_max - 90)| ∧
    40 ≤ ((fun st => update_dynamic_range st 70)^[n + 1] initialRange).hr_max -
      ((fun st => update_dynamic_range st 70)^[n + 1] initialRange).hr_min := by
  rw [iterate_update70_closed n, iterate_update70_closed (n + 1)]
  dsimp only
  have hq : (0 : ℚ) < (9 / 10) ^ n := pow_pos (by norm_num) n
  have hq1 : (0 : ℚ) < (9 / 10) ^ (n + 1) := pow_pos (by norm_num) (n + 1)
  have hlt : ((9 : ℚ) / 10) ^ (n + 1) < (9 / 10) ^ n := by
    rw [pow_succ]
    nlinarith
  refine ⟨?_, ?_, by linarith⟩
  · rw [show (50 - 30 * ((9 : ℚ) / 10) ^ (n + 1)) - 50 =
        -(30 * (9 / 10) ^ (n + 1)) by ring,
      show (50 - 30 * ((9 : ℚ) / 10) ^ n) - 50 = -(30 * (9 / 10) ^ n) by ring,
      abs_neg, abs_neg, abs_of_pos (by positivity), abs_of_pos (by positivity)]
    linarith
  · rw [show (90 + 90 * ((9 : ℚ) / 10) ^ (n + 1)) - 90 =
        90 * (9 / 10) ^ (n + 1) by ring,
      show (90 + 90 * ((9 : ℚ) / 10) ^ n) - 90 = 90 * (9 / 10) ^ n by ring,
      abs_of_pos (by positivity), abs_of_pos (by positivity)]
    linarith

/-- C9, witnessed at the first iteration. -/
theorem claim_C9_convergence_witness :
    |(((fun st => update_dynamic_range st 70)^[1] initialRange).hr_min - 50)| <
      |(((fun st => update_dynamic_range st 70)^[0] initialRange).hr_min - 50)| ∧
    |(((fun st => update_dynamic_range st 70)^[1] initialRange).hr_max - 90)| <
      |(((fun st => update_dynamic_range st 70)^[0] initialRange).hr_max - 90)| ∧
    40 ≤ ((fun st => update_dynamic_range st 70)^[1] initialRange).hr_max -
      ((fun st => update_dynamic_range st 70)^[1] initialRange).hr_min :=
  claim_C9_update70_convergence 0

/-- C10: `ecg_notification_handler` only enqueues non-empty sample
batches (empty decode results are filtered before the push), so a
queue holding only non-empty batches still holds only non-empty
batches after any notification; and `update_ecg_data` flips
`ecg_enabled` from false to true only when the decoded batch is
non-empty. -/
theorem claim_C10_nonempty_batches (q : PyQueue (List Int)) (data : List Nat)
    (hq : ∀ b ∈ q.items, b ≠ []) :
    (∀ b ∈ (ecg_notification_handler q data).items, b ≠ []) ∧
    (∀ (s : EcgViewState), s.ecg_enabled = false →
      (update_ecg_data s (parse_ecg_data data)).ecg_enabled = true →
      parse_ecg_data data ≠ []) := by
  constructor
  · intro b hb
    unfold ecg_notification_handler at hb
    by_cases hs : parse_ecg_data data = []
    · rw [if_pos hs] at hb
      exact hq b hb
    · rw [if_neg hs] at hb
      rcases mem_notification_push hb with hmem | rfl
      · exact hq b hmem
      · exact hs
  · intro s hen hup
    unfold update_ecg_data at hup
    by_cases hs : parse_ecg_data data = []
    · rw [if_pos hs] at hup
      rw [hen] at hup
      exact absurd hup (by simp)
    · exact hs

/-- C10, witnessed on the empty code queue and the 13-byte ECG
payload decoding to `[1]`. -/
theorem claim_C10_witness :
    (∀ b ∈ (ecg_notification_handler ecg_data_queue
        [0, 0, 0, 0, 0, 0, 0, 0, 0, 0, 0x01, 0x00, 0x00]).items, b ≠ []) ∧
    (∀ (s : EcgViewState), s.ecg_enabled = false →
      (update_ecg_data s
        (parse_ecg_data [0, 0, 0, 0, 0, 0, 0, 0, 0, 0, 0x01, 0x00, 0x00])).ecg_enabled
        = true →
      parse_ecg_data [0, 0, 0, 0, 0, 0, 0, 0, 0, 0, 0x01, 0x00, 0x00] ≠ []) := by
  exact claim_C10_nonempty_batches ecg_data_queue
    [0, 0, 0, 0, 0, 0, 0, 0, 0, 0, 0x01, 0x00, 0x00] (by simp [ecg_data_queue])

end PulseStream
